import Mathlib

/-!
Shallow embedding of the MKV/EBML metadata extractor of this repository
(source: src/src-tauri/src/metadata.rs, duration rendering from
src/src-tauri/src/video.rs) and proofs of the frozen claims about it.

The Rust reader is a forward-only buffered reader over an opened file; it is
modelled as a list of bytes together with a current position.  Fallible Rust
operations returning `Result<_, String>` are modelled with `Except`; a Rust
panic (an abort that is not a `Result` at all) is modelled by a dedicated
error constructor so that it stays observably distinct from returned errors.
Rust `f32`/`f64` values are modelled semantically: a float is either a finite
rational (every finite IEEE float is a dyadic rational), an infinity, or NaN;
arithmetic rounds exact rational results to 53-bit precision with the IEEE
round-to-nearest-even rule, as the hardware does.
-/

set_option maxRecDepth 100000

attribute [local semireducible] Rat.mul Rat.inv Rat.add Rat.sub Rat.ofScientific

namespace LocalVideo

/-- A byte of the input file. -/
abbrev Byte := Fin 256

/-- The buffered reader over the opened file: the file bytes plus the current
stream position.  Seeking past the end of the data is allowed, as it is for a
Rust reader; only reads can fail. -/
structure ByteStream where
  data : List Byte
  pos : Nat
deriving DecidableEq

/-- Observable failure of a call: an error value carried by a Rust
`Result::Err`, or a panic. -/
inductive PErr where
  | msg (s : String)
  | panicked
deriving DecidableEq

/-- Equality of `Except` results is decidable when it is on both sides. -/
instance {ε α : Type} [DecidableEq ε] [DecidableEq α] : DecidableEq (Except ε α) := fun a b =>
  match a, b with
  | .error e1, .error e2 => decidable_of_iff (e1 = e2) (by simp)
  | .error _, .ok _ => .isFalse (by simp)
  | .ok _, .error _ => .isFalse (by simp)
  | .ok a1, .ok a2 => decidable_of_iff (a1 = a2) (by simp)

/-- Error text produced by `std::io` when `read_exact` hits end of file. -/
def shortReadMsg : String := "failed to fill whole buffer"

/-- Error text of metadata.rs line 28. -/
def invalidVintMsg : String := "Invalid VINT encoding"

/-- Error text of metadata.rs line 51. -/
def invalidElementIdMsg : String := "Invalid element ID"

/-- Error text of metadata.rs line 94. -/
def invalidMkvMsg : String := "Invalid MKV file"

/-- Error text of metadata.rs line 102. -/
def invalidSegmentMsg : String := "Invalid Segment element"

/-- Error text of metadata.rs line 152. -/
def missingTimecodeScaleMsg : String := "Missing TimecodeScale in MKV metadata"

/-- Error text of metadata.rs line 153. -/
def missingDurationMsg : String := "Missing Duration in MKV metadata"

/-- Placeholder error of the loop-fuel guard of `scanInfo` and `scanSegment`.
The guard is unreachable for the fuel every caller passes (see the comments
there), so no theorem ever meets this message. -/
def fuelMsg : String := "loop fuel exhausted"

/-- Model of `reader.read_exact` on a 1-byte buffer: return the byte at the
current position and advance, or fail at end of file. -/
def readByte (s : ByteStream) : Except PErr (Byte × ByteStream) :=
  match s.data[s.pos]? with
  | some b => .ok (b, { s with pos := s.pos + 1 })
  | none => .error (.msg shortReadMsg)

/-- Model of `reader.read_exact` on an `n`-byte buffer: return the next `n`
bytes and advance, or fail when fewer than `n` bytes remain. -/
def readExact (s : ByteStream) (n : Nat) : Except PErr (List Byte × ByteStream) :=
  if s.pos + n ≤ s.data.length then
    .ok ((s.data.drop s.pos).take n, { s with pos := s.pos + n })
  else .error (.msg shortReadMsg)

/-- Model of `reader.seek(SeekFrom::Current(n))` for the non-negative offsets
the extractor uses (every seek offset is a decoded size, hence below `2^56`,
so the Rust `as i64` cast never turns it negative). -/
def seekCur (s : ByteStream) (n : Nat) : ByteStream :=
  { s with pos := s.pos + n }

/-- Big-endian accumulation `acc = (acc << 8) | b`, the loop shape shared by
`read_vint` (metadata.rs line 34), `read_element_id` (line 57) and
`bytes_to_u64` (line 65).  The machine-width wrap-around of the Rust `u32` and
`u64` accumulators is omitted because it is unreachable: every caller folds at
most 8 bytes (at most 4 for the `u32` of `read_element_id`) over an initial
value below `2^8`, which keeps the result below `2^64` (resp. `2^32`). -/
def beAccum (init : Nat) (l : List Byte) : Nat :=
  l.foldl (fun acc b => (acc <<< 8) ||| (b : Nat)) init

/-- EBML header magic, metadata.rs line 5. -/
def EBML_HEADER_ID : Nat := 0x1A45DFA3

/-- Segment element ID, metadata.rs line 6. -/
def SEGMENT_ID : Nat := 0x18538067

/-- Info element ID, metadata.rs line 7. -/
def INFO_ID : Nat := 0x1549A966

/-- Duration element ID, metadata.rs line 8. -/
def DURATION_ID : Nat := 0x4489

/-- TimecodeScale element ID, metadata.rs line 9. -/
def TIMECODE_SCALE_ID : Nat := 0x2AD7B1

/-- The length scan of `read_vint` (metadata.rs lines 19-25): the first `i`
in `0..8` with bit `0x80 >> i` set in the first byte gives length `i + 1`;
`0` means no bit was set (the invalid-encoding case). -/
def vintLength (b : Nat) : Nat :=
  match (List.range 8).find? (fun i => b &&& (0x80 >>> i) != 0) with
  | some i => i + 1
  | none => 0

/-- Model of `read_vint` (metadata.rs lines 12-38), the size-mode
variable-length-integer decoder.  The first-byte contribution
`first_byte & !(0xFF << (8 - length))` is written `b &&& (0xFF >>> length)`:
on `u8` both masks equal `2 ^ (8 - length) - 1`. -/
def read_vint (s : ByteStream) : Except PErr (Nat × ByteStream) :=
  match readByte s with
  | .error e => .error e
  | .ok (fb, s1) =>
    let b : Nat := (fb : Nat)
    let length := vintLength b
    if length = 0 then .error (.msg invalidVintMsg)
    else
      match readExact s1 (length - 1) with
      | .error e => .error e
      | .ok (rest, s2) => .ok (beAccum (b &&& (0xFF >>> length)) rest, s2)

/-- Model of `read_element_id` (metadata.rs lines 41-61), the identifier-mode
decoder: the class marker of the first byte selects how many further bytes to
read, and the marker bits stay in the accumulated value. -/
def read_element_id (s : ByteStream) : Except PErr (Nat × ByteStream) :=
  match readByte s with
  | .error e => .error e
  | .ok (b0, s1) =>
    let element_id : Nat := (b0 : Nat)
    match
      (if element_id &&& 0x80 = 0x80 then some 0
       else if element_id &&& 0x40 = 0x40 then some 1
       else if element_id &&& 0x20 = 0x20 then some 2
       else if element_id &&& 0x10 = 0x10 then some 3
       else none) with
    | none => .error (.msg invalidElementIdMsg)
    | some bytes_to_read =>
      match readExact s1 bytes_to_read with
      | .error e => .error e
      | .ok (rest, s2) => .ok (beAccum element_id rest, s2)

/-- Model of `bytes_to_u64` (metadata.rs lines 64-66). -/
def bytes_to_u64 (buffer : List Byte) : Nat :=
  beAccum 0 buffer

/-- Semantic value of a Rust floating-point number: a finite value (every
finite IEEE float is a rational), a signed infinity, or NaN.  Signed zero is
not distinguished; no claim observes the sign of a zero. -/
inductive FloatVal where
  | finite (q : ℚ)
  | inf (neg : Bool)
  | nan
deriving DecidableEq

/-- Attach an IEEE sign bit to a magnitude. -/
def fsign (neg : Bool) (q : ℚ) : ℚ :=
  if neg then -q else q

/-- Fuel-driven floor of the base-2 logarithm: `log2Fuel fuel n` equals
`Nat.log2 n` whenever `fuel ≥ n` (the recursion halves `n`, so `n` itself is
always enough fuel).  Written with explicit fuel so that it reduces inside
the kernel, which the well-founded `Nat.log2` does not. -/
def log2Fuel : Nat → Nat → Nat
  | 0, _ => 0
  | fuel + 1, n => if 2 ≤ n then log2Fuel fuel (n / 2) + 1 else 0

/-- Smallest `k` with `d ≤ n * 2 ^ k`, computed with fuel (for `0 < n` the
answer is at most `d`, so `d` is always enough fuel). -/
def scaleUpFuel : Nat → Nat → Nat → Nat
  | 0, _, _ => 0
  | fuel + 1, n, d => if d ≤ n then 0 else scaleUpFuel fuel (n * 2) d + 1

/-- Floor of the base-2 logarithm of a positive rational: the unique `e` with
`2 ^ e ≤ a < 2 ^ (e + 1)`.  For `a ≥ 1` this is the bit length of `⌊a⌋`
minus one; for `a < 1` it is minus the least `k` with `den ≤ num * 2 ^ k`. -/
def floorLog2Q (a : ℚ) : ℤ :=
  let n := a.num.toNat
  let d := a.den
  if d ≤ n then (log2Fuel (n / d) (n / d) : ℤ)
  else -(scaleUpFuel d n d : ℤ)

/-- The rational `2 ^ k` for an integer `k`, via the kernel-accelerated `Nat`
power. -/
def pow2z (k : ℤ) : ℚ :=
  if 0 ≤ k then ((Nat.pow 2 k.toNat : ℕ) : ℚ) else 1 / ((Nat.pow 2 (-k).toNat : ℕ) : ℚ)

/-- Semantic value of `f32::from_bits bits`: split the 32 bits into sign,
8-bit exponent and 23-bit mantissa fields and apply the IEEE 754 binary32
interpretation (bias 127, implicit leading bit for normal numbers,
subnormals scaled by `2 ^ (-149)`). -/
def decode32 (bits : Nat) : FloatVal :=
  let neg : Bool := (bits >>> 31) % 2 == 1
  let e : Nat := (bits >>> 23) &&& 0xFF
  let m : Nat := bits &&& 0x7FFFFF
  if e = 0xFF then (if m = 0 then .inf neg else .nan)
  else if e = 0 then .finite (fsign neg ((m : ℚ) * pow2z (-149)))
  else .finite (fsign neg (((0x800000 + m : ℕ) : ℚ) * pow2z ((e : ℤ) - 150)))

/-- Semantic value of `f64::from_bits bits`: IEEE 754 binary64 (11-bit
exponent, 52-bit mantissa, bias 1023). -/
def decode64 (bits : Nat) : FloatVal :=
  let neg : Bool := (bits >>> 63) % 2 == 1
  let e : Nat := (bits >>> 52) &&& 0x7FF
  let m : Nat := bits &&& 0xFFFFFFFFFFFFF
  if e = 0x7FF then (if m = 0 then .inf neg else .nan)
  else if e = 0 then .finite (fsign neg ((m : ℚ) * pow2z (-1074)))
  else .finite (fsign neg (((0x10000000000000 + m : ℕ) : ℚ) * pow2z ((e : ℤ) - 1075)))

/-- Nearest integer to `q`, ties to the even integer: the IEEE default
rounding applied to a scaled significand. -/
def roundHalfEven (q : ℚ) : ℤ :=
  let n := ⌊q⌋
  let r := q - (n : ℚ)
  if r < 1 / 2 then n
  else if 1 / 2 < r then n + 1
  else if n % 2 = 0 then n else n + 1

/-- Round an exact rational to the nearest IEEE binary64 value
(round-to-nearest, ties-to-even), overflowing to infinity past the largest
finite double.  `Int.log 2` gives the floor of the base-2 logarithm; clamping
the exponent at `-1022` realises gradual underflow to subnormals. -/
def roundF64 (q : ℚ) : FloatVal :=
  if q = 0 then .finite 0
  else
    let a := |q|
    let e : ℤ := max (floorLog2Q a) (-1022)
    let m : ℤ := roundHalfEven (a * pow2z (52 - e))
    let v : ℚ := (m : ℚ) * pow2z (e - 52)
    if pow2z 1024 ≤ v then .inf (decide (q < 0))
    else .finite (fsign (decide (q < 0)) v)

/-- Rust `f64` multiplication on semantic values: exact rational product
rounded to binary64, with the IEEE special-value rules. -/
def fmul : FloatVal → FloatVal → FloatVal
  | .nan, _ => .nan
  | _, .nan => .nan
  | .inf n1, .inf n2 => .inf (xor n1 n2)
  | .inf n1, .finite q => if q = 0 then .nan else .inf (xor n1 (decide (q < 0)))
  | .finite q, .inf n2 => if q = 0 then .nan else .inf (xor (decide (q < 0)) n2)
  | .finite a, .finite b => roundF64 (a * b)

/-- Rust `f64` division on semantic values. -/
def fdiv : FloatVal → FloatVal → FloatVal
  | .nan, _ => .nan
  | _, .nan => .nan
  | .inf _, .inf _ => .nan
  | .inf n1, .finite q => .inf (xor n1 (decide (q < 0)))
  | .finite _, .inf _ => .finite 0
  | .finite a, .finite b =>
    if b = 0 then (if a = 0 then .nan else .inf (xor (decide (a < 0)) (decide (b < 0))))
    else roundF64 (a / b)

/-- Rust `u64 as f64` conversion: exact when below `2 ^ 53`, otherwise
rounded to the nearest double. -/
def natToF64 (n : Nat) : FloatVal :=
  roundF64 (n : ℚ)

/-- Model of `bytes_to_f64` (metadata.rs lines 69-75): a 4-byte span is the
big-endian binary32 value (the Rust `as f64` widening of an `f32` is exact,
so the semantic value is unchanged), an 8-byte span is the big-endian
binary64 value, and every other length is `0.0` by the explicit catch-all
arm.  The `try_into().unwrap()` calls cannot panic: each sits under the
matching length arm. -/
def bytes_to_f64 (buffer : List Byte) : FloatVal :=
  match buffer.length with
  | 4 => decode32 (beAccum 0 buffer)
  | 8 => decode64 (beAccum 0 buffer)
  | _ => .finite 0

/-- Model of the `MkvMetadata` record (metadata.rs lines 80-84). -/
structure MkvMetadata where
  timecode_scale : Nat
  duration : FloatVal
  video_duration_seconds : FloatVal
deriving DecidableEq

/-- Model of the inner `while` loop of `get_mkv_metadata` over the children of
an Info element (metadata.rs lines 117-142).  The loop is driven by explicit
fuel so that it stays a structural recursion the kernel can evaluate; the
fuel-exhausted branch is unreachable for the fuel the caller passes: every
iteration first succeeds in `read_element_id` and `read_vint`, which advance
the position by at least 2, so with initial fuel `info_end - pos + 1` the
guard `pos < info_end` fails before the fuel does.

Faithfulness note on the two value branches: the Rust code reads into
`&mut buffer[..info_element_size as usize]` where `buffer` is a fixed
`[0u8; 8]`.  When the declared size exceeds 8 that slice expression panics
(range end index out of range), which is modelled by `.error .panicked`;
otherwise exactly `info_element_size` bytes are read and converted. -/
def scanInfo : Nat → ByteStream → Nat → Option Nat → Option FloatVal →
    Except PErr (ByteStream × Option Nat × Option FloatVal)
  | 0, _, _, _, _ => .error (.msg fuelMsg)
  | fuel + 1, s, info_end, timecodeScale, duration =>
    if s.pos < info_end then
      match read_element_id s with
      | .error e => .error e
      | .ok (info_element_id, s1) =>
        match read_vint s1 with
        | .error e => .error e
        | .ok (info_element_size, s2) =>
          let step : Except PErr (ByteStream × Option Nat × Option FloatVal) :=
            if info_element_id = TIMECODE_SCALE_ID then
              if 8 < info_element_size then .error .panicked
              else
                match readExact s2 info_element_size with
                | .error e => .error e
                | .ok (buffer, s3) => .ok (s3, some (bytes_to_u64 buffer), duration)
            else if info_element_id = DURATION_ID then
              if 8 < info_element_size then .error .panicked
              else
                match readExact s2 info_element_size with
                | .error e => .error e
                | .ok (buffer, s3) => .ok (s3, timecodeScale, some (bytes_to_f64 buffer))
            else
              .ok (seekCur s2 info_element_size, timecodeScale, duration)
          match step with
          | .error e => .error e
          | .ok (s3, ts2, dur2) =>
            if ts2.isSome && dur2.isSome then .ok (s3, ts2, dur2)
            else scanInfo fuel s3 info_end ts2 dur2
    else .ok (s, timecodeScale, duration)

/-- Model of the outer `while` loop of `get_mkv_metadata` over the children of
the Segment element (metadata.rs lines 111-150).  Fuel as in `scanInfo`: with
initial fuel `segment_end - pos + 1` the fuel-exhausted branch is
unreachable, because every iteration advances the position by at least 2.
An Info child is scanned by `scanInfo` within the sub-region ending at
`pos + element_size`; any other child is skipped by seeking forward its
declared size; either way the loop breaks as soon as both values are
present. -/
def scanSegment : Nat → ByteStream → Nat → Option Nat → Option FloatVal →
    Except PErr (ByteStream × Option Nat × Option FloatVal)
  | 0, _, _, _, _ => .error (.msg fuelMsg)
  | fuel + 1, s, segment_end, timecodeScale, duration =>
    if s.pos < segment_end then
      match read_element_id s with
      | .error e => .error e
      | .ok (element_id, s1) =>
        match read_vint s1 with
        | .error e => .error e
        | .ok (element_size, s2) =>
          if element_id = INFO_ID then
            match scanInfo (element_size + 1) s2 (s2.pos + element_size) timecodeScale duration with
            | .error e => .error e
            | .ok (s3, ts2, dur2) =>
              if ts2.isSome && dur2.isSome then .ok (s3, ts2, dur2)
              else scanSegment fuel s3 segment_end ts2 dur2
          else
            let s3 := seekCur s2 element_size
            if timecodeScale.isSome && duration.isSome then .ok (s3, timecodeScale, duration)
            else scanSegment fuel s3 segment_end timecodeScale duration
    else .ok (s, timecodeScale, duration)

/-- Stage 1-2 of `get_mkv_metadata` (metadata.rs lines 91-98): read 4 header
bytes and compare with the EBML magic, then read the header size and seek
past the header body. -/
def parseHeader (s : ByteStream) : Except PErr ByteStream :=
  match readExact s 4 with
  | .error e => .error e
  | .ok (header, s1) =>
    if bytes_to_u64 header ≠ EBML_HEADER_ID then .error (.msg invalidMkvMsg)
    else
      match read_vint s1 with
      | .error e => .error e
      | .ok (ebml_header_size, s2) => .ok (seekCur s2 ebml_header_size)

/-- Stage 3 of `get_mkv_metadata` (metadata.rs lines 100-106): demand the
Segment identifier and read its declared size. -/
def parsePreamble (s : ByteStream) : Except PErr (ByteStream × Nat) :=
  match parseHeader s with
  | .error e => .error e
  | .ok s3 =>
    match read_element_id s3 with
    | .error e => .error e
    | .ok (segment_id, s4) =>
      if segment_id ≠ SEGMENT_ID then .error (.msg invalidSegmentMsg)
      else
        match read_vint s4 with
        | .error e => .error e
        | .ok (segment_size, s5) => .ok (s5, segment_size)

/-- Final stage of `get_mkv_metadata` (metadata.rs lines 152-161): demand
both optional values and assemble the record, deriving
`video_duration_seconds = duration * timecode_scale as f64 / 1_000_000_000.0`
in `f64` arithmetic (the literal `1_000_000_000.0` is the exact double
`10^9`). -/
def finishMeta (tsOpt : Option Nat) (durOpt : Option FloatVal) : Except PErr MkvMetadata :=
  match tsOpt with
  | none => .error (.msg missingTimecodeScaleMsg)
  | some timecode_scale =>
    match durOpt with
    | none => .error (.msg missingDurationMsg)
    | some duration =>
      .ok { timecode_scale := timecode_scale
            duration := duration
            video_duration_seconds :=
              fdiv (fmul duration (natToF64 timecode_scale)) (natToF64 1000000000) }

/-- Model of `get_mkv_metadata` (metadata.rs lines 87-162), with the byte
stream standing for the opened file. -/
def get_mkv_metadata (s : ByteStream) : Except PErr MkvMetadata :=
  match parsePreamble s with
  | .error e => .error e
  | .ok (s5, segment_size) =>
    match scanSegment (segment_size + 1) s5 (s5.pos + segment_size) none none with
    | .error e => .error e
    | .ok (_, tsOpt, durOpt) => finishMeta tsOpt durOpt

/-- Rust `duration as u64` (video.rs lines 55-57): the saturating
float-to-integer cast, truncating toward zero, clamping negatives and NaN to
`0` and values at or above `2^64` to `u64::MAX`. -/
def f64_to_u64 : FloatVal → Nat
  | .nan => 0
  | .inf neg => if neg then 0 else 2 ^ 64 - 1
  | .finite q => if q < 0 then 0 else min (2 ^ 64 - 1) (Int.toNat ⌊q⌋)

/-- Rust `format!` padding of an unsigned value to width 2 with leading
zeros. -/
def pad2 (n : Nat) : String :=
  if n < 10 then "0" ++ toString n else toString n

/-- The `HH:MM:SS` rendering of `get_duration` (video.rs lines 55-59):
`duration as u64`, then hours `/ 3600`, minutes `% 3600 / 60`, seconds
`% 60`, each padded to two digits. -/
def format_duration (d : FloatVal) : String :=
  let t := f64_to_u64 d
  pad2 (t / 3600) ++ ":" ++ pad2 (t % 3600 / 60) ++ ":" ++ pad2 (t % 60)

/-! ### Lemmas about the primitive decoders -/

/-- A right shift distributes over bitwise or. -/
theorem or_shiftRight_dist (a b n : Nat) : (a ||| b) >>> n = (a >>> n) ||| (b >>> n) := by
  induction n with
  | zero => rfl
  | succ n ih =>
    calc (a ||| b) >>> (n + 1) = ((a ||| b) >>> n) / 2 := Nat.shiftRight_succ ..
    _ = ((a >>> n) ||| (b >>> n)) / 2 := by rw [ih]
    _ = (a >>> n) / 2 ||| (b >>> n) / 2 := Nat.or_div_two
    _ = (a >>> (n + 1)) ||| (b >>> (n + 1)) := by rw [Nat.shiftRight_succ, Nat.shiftRight_succ]

/-- Appending one byte to a big-endian accumulator and shifting it off again
recovers the accumulator. -/
theorem byteOr_shiftRight (a : Nat) (b : Byte) : ((a <<< 8) ||| (b : Nat)) >>> 8 = a := by
  rw [or_shiftRight_dist, Nat.shiftLeft_shiftRight]
  have hb : (b : Nat) >>> 8 = 0 := by
    rw [Nat.shiftRight_eq_div_pow]
    exact Nat.div_eq_of_lt (lt_of_lt_of_eq b.isLt (by norm_num))
  rw [hb, Nat.or_zero]

/-- Shifting off all the accumulated bytes recovers the initial accumulator:
the first byte of `read_element_id` occupies the top byte of the result. -/
theorem beAccum_shiftRight (l : List Byte) : ∀ a : Nat, beAccum a l >>> (8 * l.length) = a := by
  induction l with
  | nil => intro a; simp [beAccum]
  | cons b l ih =>
    intro a
    have step : beAccum a (b :: l) = beAccum ((a <<< 8) ||| (b : Nat)) l := by
      simp [beAccum]
    rw [step, List.length_cons, Nat.mul_succ, Nat.shiftRight_add, ih, byteOr_shiftRight]

/-- The scan of the first byte never reports an encoded length above 8. -/
theorem vintLength_le (b : Nat) : vintLength b ≤ 8 := by
  unfold vintLength
  cases hf : (List.range 8).find? (fun i => b &&& (0x80 >>> i) != 0) with
  | none => simp
  | some i =>
    have hi : i < 8 := List.mem_range.mp (List.mem_of_find?_eq_some hf)
    simp
    omega

/-- Byte value of the marked byte `0x80 ||| n` stays a byte when `n < 128`. -/
theorem or128_lt {n : Nat} (h : n < 128) : 0x80 ||| n < 256 := by
  have := Nat.or_lt_two_pow (x := 0x80) (y := n) (n := 8) (by norm_num)
    (lt_trans h (by norm_num))
  simpa using this

/-- C2: size-mode decoding of a marked single byte `0x80 ||| n` (`n < 128`)
returns `n` and consumes exactly 1 byte; the 2-byte input `0x40 0x01` decodes
to `1` consuming 2 bytes, and the 3-byte input `0x20 0x00 0x01` decodes to
`1` consuming 3 bytes, marker bits stripped in every case. -/
theorem c2_size_vint_values (n : Nat) (h : n < 128) :
    read_vint { data := [⟨0x80 ||| n, or128_lt h⟩], pos := 0 } =
      .ok (n, { data := [⟨0x80 ||| n, or128_lt h⟩], pos := 1 }) ∧
    read_vint { data := [0x40, 0x01], pos := 0 } =
      .ok (1, { data := [0x40, 0x01], pos := 2 }) ∧
    read_vint { data := [0x20, 0x00, 0x01], pos := 0 } =
      .ok (1, { data := [0x20, 0x00, 0x01], pos := 3 }) := by
  refine ⟨?_, by decide, by decide⟩
  have ball : ∀ (m : Nat) (hm : m < 128),
      read_vint { data := [⟨0x80 ||| m, or128_lt hm⟩], pos := 0 } =
        .ok (m, { data := [⟨0x80 ||| m, or128_lt hm⟩], pos := 1 }) := by decide
  exact ball n h

/-- Witness for C2 at `n = 5` (byte `0x85`). -/
theorem c2_size_vint_values_witness :
    read_vint { data := [⟨0x80 ||| 5, or128_lt (by norm_num)⟩], pos := 0 } =
      .ok (5, { data := [⟨0x80 ||| 5, or128_lt (by norm_num)⟩], pos := 1 }) :=
  (c2_size_vint_values 5 (by norm_num)).1

/-- Unpacking a successful `readByte`. -/
theorem readByte_ok {s : ByteStream} {b : Byte} {s2 : ByteStream}
    (h : readByte s = .ok (b, s2)) :
    s.data[s.pos]? = some b ∧ s2.data = s.data ∧ s2.pos = s.pos + 1 := by
  unfold readByte at h
  cases hb : s.data[s.pos]? with
  | none => rw [hb] at h; exact absurd h (by simp)
  | some c =>
    rw [hb] at h
    simp only [Except.ok.injEq, Prod.mk.injEq] at h
    obtain ⟨hc, hs⟩ := h
    subst hc
    exact ⟨rfl, by rw [← hs], by rw [← hs]⟩

/-- Unpacking a successful `readExact`. -/
theorem readExact_ok {s : ByteStream} {n : Nat} {l : List Byte} {s2 : ByteStream}
    (h : readExact s n = .ok (l, s2)) :
    l.length = n ∧ s2.data = s.data ∧ s2.pos = s.pos + n := by
  unfold readExact at h
  split at h
  · rename_i hle
    simp only [Except.ok.injEq, Prod.mk.injEq] at h
    obtain ⟨hl, hs⟩ := h
    refine ⟨?_, by rw [← hs], by rw [← hs]⟩
    rw [← hl]
    simp only [List.length_take, List.length_drop]
    omega
  · exact absurd h (by simp)

/-- On success, `read_element_id` keeps the raw first byte, class marker
included, as the top byte of the identifier: it read `1 + k` bytes for some
`k ≤ 3` and shifting the identifier right by `8 * k` bits recovers the raw
first byte. -/
theorem read_element_id_marker (s : ByteStream) (id : Nat) (s2 : ByteStream)
    (h : read_element_id s = .ok (id, s2)) :
    ∃ (b : Byte) (k : Nat), s.data[s.pos]? = some b ∧ k ≤ 3 ∧
      s2.pos = s.pos + 1 + k ∧ id >>> (8 * k) = (b : Nat) := by
  unfold read_element_id at h
  cases hrb : readByte s with
  | error e => simp only [hrb] at h; exact absurd h (by simp)
  | ok p =>
    obtain ⟨b, s1⟩ := p
    simp only [hrb] at h
    obtain ⟨hb, hd1, hp1⟩ := readByte_ok hrb
    split at h
    · exact absurd h (by simp)
    · rename_i btr heq
      cases hre : readExact s1 btr with
      | error e => simp only [hre] at h; exact absurd h (by simp)
      | ok q =>
        obtain ⟨rest, s3⟩ := q
        simp only [hre, Except.ok.injEq, Prod.mk.injEq] at h
        obtain ⟨hid, hs⟩ := h
        obtain ⟨hrl, hd3, hp3⟩ := readExact_ok hre
        have hbtr : btr ≤ 3 := by
          split at heq
          · injection heq with h1; omega
          · split at heq
            · injection heq with h1; omega
            · split at heq
              · injection heq with h1; omega
              · split at heq
                · injection heq with h1; omega
                · exact absurd heq (by simp)
        refine ⟨b, btr, hb, hbtr, ?_, ?_⟩
        · rw [← hs, hp3, hp1]
        · rw [← hid, ← hrl, beAccum_shiftRight]

/-- Counterexample to C3 as stated: the byte `0x1A` carries the class marker
`0x10`, so identifier decoding treats it as the start of a 4-byte identifier
and, on the single-byte input, fails with the short-read I/O error instead of
yielding `0x1A`.  (The repository test asserting `0x1A → 0x1A` fails against
this code.) -/
theorem c3_byte_1A_does_not_decode_alone :
    read_element_id { data := [0x1A], pos := 0 } = .error (.msg shortReadMsg) := by
  decide

/-- C3 (amended): identifier-mode decoding retains the class-marker bits:
`0x40 0x00` decodes to `0x4000` and `0x20 0x00 0x00` to `0x200000`; the byte
`0x1A` begins a 4-byte identifier, so the 4-byte input `0x1A 0x45 0xDF 0xA3`
decodes to `0x1A45DFA3` with the raw byte `0x1A` retained as its top byte
(while the single-byte input `0x1A` fails with a short read); and on every
successful decode the raw first byte, marker included, is the top byte of
the returned identifier. -/
theorem c3_id_retains_marker :
    read_element_id { data := [0x1A, 0x45, 0xDF, 0xA3], pos := 0 } =
      .ok (0x1A45DFA3, { data := [0x1A, 0x45, 0xDF, 0xA3], pos := 4 }) ∧
    read_element_id { data := [0x40, 0x00], pos := 0 } =
      .ok (0x4000, { data := [0x40, 0x00], pos := 2 }) ∧
    read_element_id { data := [0x20, 0x00, 0x00], pos := 0 } =
      .ok (0x200000, { data := [0x20, 0x00, 0x00], pos := 3 }) ∧
    ∀ (s : ByteStream) (id : Nat) (s2 : ByteStream), read_element_id s = .ok (id, s2) →
      ∃ (b : Byte) (k : Nat), s.data[s.pos]? = some b ∧ k ≤ 3 ∧
        s2.pos = s.pos + 1 + k ∧ id >>> (8 * k) = (b : Nat) :=
  ⟨by decide, by decide, by decide, read_element_id_marker⟩

/-- Witness for C3 on the 2-byte identifier `0x40 0x00`. -/
theorem c3_id_retains_marker_witness :
    ∃ (b : Byte) (k : Nat), ([0x40, 0x00] : List Byte)[(0 : Nat)]? = some b ∧ k ≤ 3 ∧
      (2 : Nat) = 0 + 1 + k ∧ (0x4000 : Nat) >>> (8 * k) = (b : Nat) :=
  c3_id_retains_marker.2.2.2 { data := [0x40, 0x00], pos := 0 } 0x4000
    { data := [0x40, 0x00], pos := 2 } (by decide)

/-- C9: a first byte with no bit set makes `read_vint` fail with the
invalid-encoding error, and every successful decode consumes between 1 and 8
bytes: there is no accepted 9-or-more-byte encoding. -/
theorem c9_vint_length_bounds :
    (∀ s : ByteStream, s.data[s.pos]? = some (0 : Byte) →
      read_vint s = .error (.msg invalidVintMsg)) ∧
    (∀ (s : ByteStream) (v : Nat) (s2 : ByteStream), read_vint s = .ok (v, s2) →
      s.pos < s2.pos ∧ s2.pos ≤ s.pos + 8) := by
  constructor
  · intro s h
    unfold read_vint readByte
    rw [h]
    rfl
  · intro s v s2 h
    unfold read_vint at h
    cases hrb : readByte s with
    | error e => simp only [hrb] at h; exact absurd h (by simp)
    | ok p =>
      obtain ⟨b, s1⟩ := p
      simp only [hrb] at h
      obtain ⟨hb, hd1, hp1⟩ := readByte_ok hrb
      have hlen8 : vintLength (b : Nat) ≤ 8 := vintLength_le _
      split at h
      · exact absurd h (by simp)
      · rename_i hne
        cases hre : readExact s1 (vintLength (b : Nat) - 1) with
        | error e => simp only [hre] at h; exact absurd h (by simp)
        | ok q =>
          obtain ⟨rest, s3⟩ := q
          simp only [hre, Except.ok.injEq, Prod.mk.injEq] at h
          obtain ⟨hrl, hd3, hp3⟩ := readExact_ok hre
          obtain ⟨-, hs⟩ := h
          rw [← hs, hp3, hp1]
          omega

/-- Witness for C9: the single byte `0x00` is rejected, and the accepted
2-byte decode of `0x40 0x01` consumed between 1 and 8 bytes. -/
theorem c9_vint_length_bounds_witness :
    read_vint { data := [0x00, 0x11], pos := 0 } = .error (.msg invalidVintMsg) ∧
    ((0 : Nat) < 2 ∧ (2 : Nat) ≤ 0 + 8) :=
  ⟨c9_vint_length_bounds.1 { data := [0x00, 0x11], pos := 0 } (by decide),
   c9_vint_length_bounds.2 { data := [0x40, 0x01], pos := 0 } 1
     { data := [0x40, 0x01], pos := 2 } (by decide)⟩

/-- C5: `bytes_to_f64` maps a 4-byte span to the big-endian binary32 value
(exactly widened to double), an 8-byte span to the big-endian binary64 value,
and every span of any other length to exactly `0.0`; it is a total function,
so no input makes it fail.  Concrete anchors: the binary32 bytes of `120.0`
give `120`, the binary64 bytes of `120.0` give `120`, and lengths 0, 3 and 5
give `0.0`. -/
theorem c5_bytes_to_f64_policy :
    (∀ buffer : List Byte,
      (buffer.length = 4 → bytes_to_f64 buffer = decode32 (beAccum 0 buffer)) ∧
      (buffer.length = 8 → bytes_to_f64 buffer = decode64 (beAccum 0 buffer)) ∧
      (buffer.length ≠ 4 → buffer.length ≠ 8 → bytes_to_f64 buffer = .finite 0)) ∧
    bytes_to_f64 [0x42, 0xF0, 0x00, 0x00] = .finite 120 ∧
    bytes_to_f64 [0x40, 0x5E, 0x00, 0x00, 0x00, 0x00, 0x00, 0x00] = .finite 120 ∧
    bytes_to_f64 [] = .finite 0 ∧
    bytes_to_f64 [0x42, 0xF0, 0x00] = .finite 0 ∧
    bytes_to_f64 [0x42, 0xF0, 0x00, 0x00, 0x00] = .finite 0 := by
  refine ⟨?_, by decide, by decide, by decide, by decide, by decide⟩
  intro buffer
  refine ⟨fun h4 => ?_, fun h8 => ?_, fun h4 h8 => ?_⟩
  · simp only [bytes_to_f64, h4]
  · simp only [bytes_to_f64, h8]
  · unfold bytes_to_f64
    split
    · rename_i hl; exact absurd hl h4
    · rename_i hl; exact absurd hl h8
    · rfl

/-- Witness for C5: a 1-byte span falls under the catch-all `0.0` arm. -/
theorem c5_bytes_to_f64_policy_witness :
    bytes_to_f64 [0x3F] = .finite 0 :=
  (c5_bytes_to_f64_policy.1 [0x3F]).2.2 (by decide) (by decide)

/-- A stream that is well-formed down to the Info region and then declares a
TimecodeScale of 9 bytes: header magic, empty EBML body, Segment of size 8,
Info of size 4, TimecodeScale with declared size 9. -/
def tsOversizeStream : ByteStream :=
  { data := [0x1A, 0x45, 0xDF, 0xA3, 0x80,
             0x18, 0x53, 0x80, 0x67, 0x88,
             0x15, 0x49, 0xA9, 0x66, 0x84,
             0x2A, 0xD7, 0xB1, 0x89],
    pos := 0 }

/-- C4 is false of the code: a TimecodeScale (or Duration) element declaring
a size above 8 makes the Rust expression `&mut buffer[..size]` on the fixed
8-byte buffer panic (metadata.rs line 124), so the call aborts instead of
returning a `Result`; the inline comment there (limit the read length) and
the spec both describe a cap at 8 bytes that the code does not implement. -/
theorem c4_oversized_size_panics :
    get_mkv_metadata tsOversizeStream = .error .panicked := by
  decide

/-- C6: when the first 4 bytes are not the EBML magic, the extractor fails
with the invalid-file error, whatever bytes follow: the result does not
depend on any byte past the first 4, so none of them is consumed. -/
theorem c6_header_mismatch (b0 b1 b2 b3 : Byte) (rest : List Byte)
    (h : bytes_to_u64 [b0, b1, b2, b3] ≠ EBML_HEADER_ID) :
    get_mkv_metadata { data := b0 :: b1 :: b2 :: b3 :: rest, pos := 0 } =
      .error (.msg invalidMkvMsg) := by
  unfold get_mkv_metadata parsePreamble parseHeader
  have hre : readExact { data := b0 :: b1 :: b2 :: b3 :: rest, pos := 0 } 4 =
      .ok ([b0, b1, b2, b3], { data := b0 :: b1 :: b2 :: b3 :: rest, pos := 4 }) := by
    unfold readExact
    rw [if_pos (by simp)]
    simp
  simp only [hre, if_pos h]

/-- Witness for C6: four zero bytes are not the magic. -/
theorem c6_header_mismatch_witness :
    get_mkv_metadata { data := [0x00, 0x00, 0x00, 0x00, 0xAB], pos := 0 } =
      .error (.msg invalidMkvMsg) :=
  c6_header_mismatch 0x00 0x00 0x00 0x00 [0xAB] (by decide)

/-- C10: after the EBML header has been checked and its body skipped, an
element identifier other than the Segment identifier makes the extractor
fail with the invalid-segment error; no metadata record is produced. -/
theorem c10_missing_segment (s : ByteStream) (s3 : ByteStream) (segid : Nat) (s4 : ByteStream)
    (h1 : parseHeader s = .ok s3) (h2 : read_element_id s3 = .ok (segid, s4))
    (h3 : segid ≠ SEGMENT_ID) :
    get_mkv_metadata s = .error (.msg invalidSegmentMsg) := by
  unfold get_mkv_metadata parsePreamble
  simp only [h1, h2, if_pos h3]

/-- Witness for C10: a stream whose element after the header is the Info
element rather than the Segment element. -/
theorem c10_missing_segment_witness :
    get_mkv_metadata { data := [0x1A, 0x45, 0xDF, 0xA3, 0x80, 0x15, 0x49, 0xA9, 0x66],
                       pos := 0 } = .error (.msg invalidSegmentMsg) :=
  c10_missing_segment _ { data := [0x1A, 0x45, 0xDF, 0xA3, 0x80, 0x15, 0x49, 0xA9, 0x66], pos := 5 }
    0x1549A966 { data := [0x1A, 0x45, 0xDF, 0xA3, 0x80, 0x15, 0x49, 0xA9, 0x66], pos := 9 }
    (by decide) (by decide) (by decide)

/-- C1: once the bounded segment scan has completed, the extractor returns a
record exactly when both values were captured; a missing timecode scale gives
the missing-timecode-scale error (also when both are missing), a present
scale with a missing duration gives the missing-duration error, and in no
case is a partial record or a zero-duration record produced. -/
theorem c1_both_values_required (s s5 : ByteStream) (segment_size : Nat)
    (s6 : ByteStream) (tsOpt : Option Nat) (durOpt : Option FloatVal)
    (h1 : parsePreamble s = .ok (s5, segment_size))
    (h2 : scanSegment (segment_size + 1) s5 (s5.pos + segment_size) none none =
      .ok (s6, tsOpt, durOpt)) :
    (tsOpt = none → get_mkv_metadata s = .error (.msg missingTimecodeScaleMsg)) ∧
    (∀ t, tsOpt = some t → durOpt = none →
      get_mkv_metadata s = .error (.msg missingDurationMsg)) ∧
    (∀ t d, tsOpt = some t → durOpt = some d →
      get_mkv_metadata s =
        .ok { timecode_scale := t, duration := d,
              video_duration_seconds := fdiv (fmul d (natToF64 t)) (natToF64 1000000000) }) := by
  unfold get_mkv_metadata
  simp only [h1, h2]
  refine ⟨fun hts => ?_, fun t hts hdur => ?_, fun t d hts hdur => ?_⟩ <;>
    subst hts <;> (try subst hdur) <;> rfl

/-- A stream that is well-formed down to the Info region and encodes a
3-byte TimecodeScale of 1000000 but no Duration element: header magic, empty
EBML body, Segment of size 12, Info of size 7 holding only the TimecodeScale
element. -/
def missingDurationStream : ByteStream :=
  { data := [0x1A, 0x45, 0xDF, 0xA3, 0x80,
             0x18, 0x53, 0x80, 0x67, 0x8C,
             0x15, 0x49, 0xA9, 0x66, 0x87,
             0x2A, 0xD7, 0xB1, 0x83, 0x0F, 0x42, 0x40],
    pos := 0 }

/-- Witness for C1: the stream with a TimecodeScale but no Duration fails
with the missing-duration error once the segment is exhausted. -/
theorem c1_both_values_required_witness :
    get_mkv_metadata missingDurationStream = .error (.msg missingDurationMsg) :=
  (c1_both_values_required missingDurationStream
    { data := missingDurationStream.data, pos := 10 } 12
    { data := missingDurationStream.data, pos := 22 } (some 1000000) none
    (by decide) (by decide)).2.1 1000000 rfl rfl

/-- C7: an element whose identifier is none of the recognized ones is
skipped by seeking forward exactly its declared size from the payload start,
in the Info scan (identifier neither TimecodeScale nor Duration) as well as
in the Segment scan (identifier not Info): the loop continues at position
`s2.pos + size`, the start of the next sibling header (unless both values
are already present, in which case the loop breaks there). -/
theorem c7_unknown_elements_skipped :
    (∀ (fuel : Nat) (s : ByteStream) (info_end : Nat) (tsOpt : Option Nat)
        (durOpt : Option FloatVal) (id size : Nat) (s1 s2 : ByteStream),
      s.pos < info_end →
      read_element_id s = .ok (id, s1) →
      read_vint s1 = .ok (size, s2) →
      id ≠ TIMECODE_SCALE_ID → id ≠ DURATION_ID →
      scanInfo (fuel + 1) s info_end tsOpt durOpt =
        if tsOpt.isSome && durOpt.isSome then .ok (seekCur s2 size, tsOpt, durOpt)
        else scanInfo fuel (seekCur s2 size) info_end tsOpt durOpt) ∧
    (∀ (fuel : Nat) (s : ByteStream) (segment_end : Nat) (tsOpt : Option Nat)
        (durOpt : Option FloatVal) (id size : Nat) (s1 s2 : ByteStream),
      s.pos < segment_end →
      read_element_id s = .ok (id, s1) →
      read_vint s1 = .ok (size, s2) →
      id ≠ INFO_ID →
      scanSegment (fuel + 1) s segment_end tsOpt durOpt =
        if tsOpt.isSome && durOpt.isSome then .ok (seekCur s2 size, tsOpt, durOpt)
        else scanSegment fuel (seekCur s2 size) segment_end tsOpt durOpt) := by
  constructor
  · intro fuel s info_end tsOpt durOpt id size s1 s2 hpos hid hsz hts hdur
    rw [scanInfo]
    simp only [hid, hsz, if_pos hpos, if_neg hts, if_neg hdur]
  · intro fuel s segment_end tsOpt durOpt id size s1 s2 hpos hid hsz hinfo
    rw [scanSegment]
    simp only [hid, hsz, if_pos hpos, if_neg hinfo]

/-- Witness for C7: the 1-byte identifier `0xEC` with declared size 2 is
skipped in an info scan, resuming at the following position. -/
theorem c7_unknown_elements_skipped_witness :
    scanInfo 4 { data := [0xEC, 0x82, 0x00, 0x00], pos := 0 } 4 none none =
      scanInfo 3 (seekCur { data := [0xEC, 0x82, 0x00, 0x00], pos := 2 } 2) 4 none none :=
  c7_unknown_elements_skipped.1 3 { data := [0xEC, 0x82, 0x00, 0x00], pos := 0 } 4 none none
    0xEC 2 { data := [0xEC, 0x82, 0x00, 0x00], pos := 1 }
    { data := [0xEC, 0x82, 0x00, 0x00], pos := 2 }
    (by decide) (by decide) (by decide) (by decide) (by decide)

/-- C8: every successful extraction carries
`video_duration_seconds = duration * (timecode_scale as f64) / 1e9` computed
in `f64` arithmetic; with `timecode_scale = 1000000` and `duration = 120.0`
this value is the double written `0.12` (the binary64 rounding of `3/25`),
whose `HH:MM:SS` rendering truncates to `00:00:00`; with
`duration = 7384000.0` it is exactly `7384.0`, rendered `02:03:04`. -/
theorem c8_duration_formula :
    (∀ (s : ByteStream) (m : MkvMetadata), get_mkv_metadata s = .ok m →
      m.video_duration_seconds =
        fdiv (fmul m.duration (natToF64 m.timecode_scale)) (natToF64 1000000000)) ∧
    fdiv (fmul (.finite 120) (natToF64 1000000)) (natToF64 1000000000) =
      roundF64 (3 / 25) ∧
    format_duration (fdiv (fmul (.finite 120) (natToF64 1000000)) (natToF64 1000000000)) =
      "00:00:00" ∧
    fdiv (fmul (.finite 7384000) (natToF64 1000000)) (natToF64 1000000000) = .finite 7384 ∧
    format_duration (.finite 7384) = "02:03:04" := by
  refine ⟨?_, by decide, by decide, by decide, by decide⟩
  intro s m h
  unfold get_mkv_metadata at h
  split at h
  · exact absurd h (by simp)
  · split at h
    · exact absurd h (by simp)
    · rename_i s5 size r s7 tsOpt durOpt
      unfold finishMeta at h
      split at h
      · exact absurd h (by simp)
      · split at h
        · exact absurd h (by simp)
        · simp only [Except.ok.injEq] at h
          rw [← h]

/-- A fully well-formed stream: TimecodeScale 1000000 and an 8-byte binary64
Duration of 120.0. -/
def wellFormedStream : ByteStream :=
  { data := [0x1A, 0x45, 0xDF, 0xA3, 0x80,
             0x18, 0x53, 0x80, 0x67, 0x97,
             0x15, 0x49, 0xA9, 0x66, 0x92,
             0x2A, 0xD7, 0xB1, 0x83, 0x0F, 0x42, 0x40,
             0x44, 0x89, 0x88, 0x40, 0x5E, 0x00, 0x00, 0x00, 0x00, 0x00, 0x00],
    pos := 0 }

/-- The record the well-formed stream extracts to. -/
def wellFormedMeta : MkvMetadata :=
  { timecode_scale := 1000000
    duration := .finite 120
    video_duration_seconds := .finite (8646911284551352 / 72057594037927936) }

/-- Witness for C8: the well-formed stream succeeds and its derived duration
satisfies the `f64` formula. -/
theorem c8_duration_formula_witness :
    get_mkv_metadata wellFormedStream = .ok wellFormedMeta ∧
    wellFormedMeta.video_duration_seconds =
      fdiv (fmul wellFormedMeta.duration (natToF64 wellFormedMeta.timecode_scale))
        (natToF64 1000000000) :=
  ⟨by decide, c8_duration_formula.1 wellFormedStream wellFormedMeta (by decide)⟩

end LocalVideo
